import Mathlib

/-!
Shallow embedding of the score-matching core of the `diffusion-models`
repository (`diffusion/losses.py` and
`diffusion/examples/toy_matching.py`), together with theorems settling the
specification claims about it.

Real-valued tensors are modelled over `ℚ` so that every definition is
executable.  A batch of `B` points in `R^D` is a function `ℕ → ℕ → ℚ`
(sample index, coordinate index); all reductions range over
`Finset.range B` and `Finset.range D`, mirroring the tensor shapes.
Randomness (`torch.randn_like`, `torch.randint`) is passed in explicitly
as the noise draw `ε` and the level indices `ids`, as the spec prescribes
("randomness sources ... are assumed seedable by the caller").
`torch.mean` of a length-`B` tensor is embedded as division by `B` in `ℚ`.
-/

namespace Diffusion

/-- A score model `f : R^D → R^D` together with the Jacobian that the
autograd engine computes for it: `jac v i j = ∂f_i/∂x_j` at the point `v`.
The model is applied row-wise to a batch, matching the per-row
independence the source relies on. -/
structure ScoreModel where
  D : ℕ
  f : (ℕ → ℚ) → (ℕ → ℚ)
  jac : (ℕ → ℚ) → (ℕ → ℕ → ℚ)

/-- A noise-conditional score model `f(x, level_id) : R^D`. -/
structure CondScoreModel where
  D : ℕ
  f : (ℕ → ℚ) → ℕ → (ℕ → ℚ)

/-- Mathematical trace of the Jacobian of a score model at a point: the
sum of all `D` diagonal entries `∂f_i/∂x_i`. -/
def traceJac (m : ScoreModel) (v : ℕ → ℚ) : ℚ :=
  ∑ i in Finset.range m.D, m.jac v i i

/-- Modelled from the spec: `diffusion.jacobians.full_jacobian` is not under
`src/`.  Per the spec's exact/batched strategy it returns the full Jacobian
of the batched map, shape `B×D×B×D`, whose off-diagonal batch blocks are
mathematically zero (the model is applied independently per row) and whose
diagonal block `J[k, :, k, :]` is the Jacobian of `f` at sample `k`. -/
def full_jacobian (m : ScoreModel) (x : ℕ → ℕ → ℚ) : ℕ → ℕ → ℕ → ℕ → ℚ :=
  fun k i l j => if k = l then m.jac (x k) i j else 0

/-- Modelled from the spec: `diffusion.jacobians.batched_jacobian` is not
under `src/`.  Per the spec's fast/replicated-input strategy it collects,
for each of the first `ydim` output dimensions, the rows of each sample's
own Jacobian, producing a `B×ydim×D` tensor without batch cross terms. -/
def batched_jacobian (m : ScoreModel) (x : ℕ → ℕ → ℚ) (ydim : ℕ) :
    ℕ → ℕ → ℕ → ℚ :=
  fun k i j => if i < ydim then m.jac (x k) i j else 0

/-- Embeds `losses._ism`: `(tr_jac + 0.5 * (scores ** 2).sum(-1)).mean()`,
where the inner sum runs over the `D` output coordinates and the mean over
the `B` samples. -/
def ismCombine (B D : ℕ) (tr_jac : ℕ → ℚ) (scores : ℕ → ℕ → ℚ) : ℚ :=
  (∑ k in Finset.range B,
      (tr_jac k + 1/2 * ∑ i in Finset.range D, (scores k i) ^ 2)) / B

/-- The trace vector built by `ism_loss` (losses.py line 17):
`tr = j[range(B), 0, range(B), 0] + j[range(B), 1, range(B), 1]`. -/
def ismTr (m : ScoreModel) (x : ℕ → ℕ → ℚ) : ℕ → ℚ :=
  fun k => full_jacobian m x k 0 k 0 + full_jacobian m x k 1 k 1

/-- The trace vector built by `ism_loss_fast` (losses.py line 28):
`tr = j[range(B), 0, 0] + j[range(B), 1, 1]` with
`j = batched_jacobian(score_model, x, 2)`. -/
def ismTrFast (m : ScoreModel) (x : ℕ → ℕ → ℚ) : ℕ → ℚ :=
  fun k => batched_jacobian m x 2 k 0 0 + batched_jacobian m x 2 k 1 1

/-- Embeds `losses.ism_loss`: implicit score matching loss via the
exact/batched Jacobian strategy. -/
def ism_loss (m : ScoreModel) (B : ℕ) (x : ℕ → ℕ → ℚ) : ℚ :=
  ismCombine B m.D (ismTr m x) (fun k => m.f (x k))

/-- Embeds `losses.ism_loss_fast`: implicit score matching loss via the
fast/replicated-input Jacobian strategy. -/
def ism_loss_fast (m : ScoreModel) (B : ℕ) (x : ℕ → ℕ → ℚ) : ℚ :=
  ismCombine B m.D (ismTrFast m x) (fun k => m.f (x k))

/-- A tiny concrete model with `D = 2` used by witnesses: `f` is the
identity and the autograd Jacobian is the 2×2 identity matrix. -/
def demo2 : ScoreModel where
  D := 2
  f := fun v => v
  jac := fun _ i j => if i = j then 1 else 0

/-- A concrete model with `D = 3` used by counterexamples: `f` is the
identity on `R^3` and the autograd Jacobian is the 3×3 identity matrix,
whose trace is `3`. -/
def demo3 : ScoreModel where
  D := 3
  f := fun v => v
  jac := fun _ i j => if i = j then 1 else 0

/-- The all-zero batch. -/
def zeroBatch : ℕ → ℕ → ℚ := fun _ _ => 0

example : ismTr demo3 zeroBatch 0 = 2 := by
  norm_num [ismTr, full_jacobian, demo3, zeroBatch]

example : traceJac demo3 (zeroBatch 0) = 3 := by
  norm_num [traceJac, demo3, zeroBatch, Finset.sum_range_succ]

example : ism_loss demo3 1 zeroBatch = 2 := by
  norm_num [ism_loss, ismCombine, ismTr, full_jacobian, demo3, zeroBatch,
    Finset.sum_range_succ]

/-- Both trace strategies extract exactly the first two diagonal Jacobian
entries, whatever `D` is. -/
theorem ismTr_eq_diag01 (m : ScoreModel) (x : ℕ → ℕ → ℚ) (k : ℕ) :
    ismTr m x k = m.jac (x k) 0 0 + m.jac (x k) 1 1 ∧
      ismTrFast m x k = m.jac (x k) 0 0 + m.jac (x k) 1 1 := by
  constructor
  · simp [ismTr, full_jacobian]
  · simp [ismTrFast, batched_jacobian]

/-- For a two-dimensional model the first two diagonal entries are the
whole diagonal. -/
theorem traceJac_of_dim_two (m : ScoreModel) (v : ℕ → ℚ) (hD : m.D = 2) :
    traceJac m v = m.jac v 0 0 + m.jac v 1 1 := by
  simp [traceJac, hD, Finset.sum_range_succ]

/-- On a two-dimensional model, both hardcoded trace extractions compute
the true Jacobian trace. -/
theorem ismTr_eq_trace_of_dim_two (m : ScoreModel) (x : ℕ → ℕ → ℚ) (k : ℕ)
    (hD : m.D = 2) :
    ismTr m x k = traceJac m (x k) ∧ ismTrFast m x k = traceJac m (x k) := by
  obtain ⟨h1, h2⟩ := ismTr_eq_diag01 m x k
  rw [traceJac_of_dim_two m (x k) hD]
  exact ⟨h1, h2⟩

/-- C1: the claim fails on the code.  Against the 3-dimensional identity
model, both hardcoded trace extractions return `2` while the true
Jacobian trace is `3`. -/
theorem C1_trace_counterexample :
    ismTr demo3 zeroBatch 0 ≠ traceJac demo3 (zeroBatch 0) ∧
      ismTrFast demo3 zeroBatch 0 ≠ traceJac demo3 (zeroBatch 0) := by
  norm_num [ismTr, ismTrFast, full_jacobian, batched_jacobian, traceJac,
    demo3, zeroBatch, Finset.sum_range_succ]

/-- C1 (amended): the trace computation used by both ISM strategies yields
`tr[k] = J[0,0] + J[1,1]`, the sum of the first two diagonal entries of
the Jacobian at `X[k]`; this equals `trace(J_f(X[k]))` exactly when
`D = 2`, the dimension the source hardcodes. -/
theorem C1_trace_amended (m : ScoreModel) (x : ℕ → ℕ → ℚ) (k : ℕ) :
    ismTr m x k = m.jac (x k) 0 0 + m.jac (x k) 1 1 ∧
      ismTrFast m x k = m.jac (x k) 0 0 + m.jac (x k) 1 1 ∧
        (m.D = 2 →
          ismTr m x k = traceJac m (x k) ∧
            ismTrFast m x k = traceJac m (x k)) := by
  obtain ⟨h1, h2⟩ := ismTr_eq_diag01 m x k
  exact ⟨h1, h2, fun hD => ismTr_eq_trace_of_dim_two m x k hD⟩

/-- C1 witness: the amended statement evaluated on the concrete
2-dimensional demo model and the zero batch. -/
theorem C1_trace_amended_witness :
    demo2.D = 2 ∧
      ismTr demo2 zeroBatch 0 = traceJac demo2 (zeroBatch 0) ∧
        ismTrFast demo2 zeroBatch 0 = traceJac demo2 (zeroBatch 0) :=
  ⟨rfl, (C1_trace_amended demo2 zeroBatch 0).2.2 rfl⟩

/-- C3: the claim fails on the code.  Against the 3-dimensional identity
model and a singleton zero batch, `ism_loss` returns `2` while the claimed
formula `mean(tr J + 0.5‖f‖²)` evaluates to `3`. -/
theorem C3_ism_counterexample :
    ism_loss demo3 1 zeroBatch ≠
      (∑ k in Finset.range 1,
          (traceJac demo3 (zeroBatch k) +
            1/2 * ∑ i in Finset.range demo3.D, (demo3.f (zeroBatch k) i) ^ 2)) /
        (1 : ℕ) := by
  norm_num [ism_loss, ismCombine, ismTr, full_jacobian, traceJac, demo3,
    zeroBatch, Finset.sum_range_succ]

/-- C3 (amended): for every score model with output dimension `D = 2` and
every non-empty batch, the implicit score matching loss equals the batch
mean of `tr(J_f(x_k)) + 0.5·‖f(x_k)‖²`, the squared norm summed over the
output dimensions before the mean. -/
theorem C3_ism_amended (m : ScoreModel) (B : ℕ) (x : ℕ → ℕ → ℚ)
    (hD : m.D = 2) (hB : 0 < B) :
    ism_loss m B x =
      (∑ k in Finset.range B,
          (traceJac m (x k) +
            1/2 * ∑ i in Finset.range m.D, (m.f (x k) i) ^ 2)) / B := by
  unfold ism_loss ismCombine
  congr 1
  refine Finset.sum_congr rfl fun k _ => ?_
  rw [(ismTr_eq_trace_of_dim_two m x k hD).1]

/-- C3 witness: the amended statement evaluated on the concrete
2-dimensional demo model and a singleton zero batch. -/
theorem C3_ism_amended_witness :
    demo2.D = 2 ∧ 0 < 1 ∧
      ism_loss demo2 1 zeroBatch =
        (∑ k in Finset.range 1,
            (traceJac demo2 (zeroBatch k) +
              1/2 * ∑ i in Finset.range demo2.D, (demo2.f (zeroBatch k) i) ^ 2)) /
          (1 : ℕ) :=
  ⟨rfl, one_pos, C3_ism_amended demo2 1 zeroBatch rfl one_pos⟩

/-- C7: the exact/batched and the fast/replicated-input trace strategies
produce identical per-sample traces, and the ISM loss value is identical
whichever strategy is selected (exact equality, hence within any
tolerance). -/
theorem C7_strategies_agree (m : ScoreModel) (B : ℕ) (x : ℕ → ℕ → ℚ) :
    (∀ k, ismTr m x k = ismTrFast m x k) ∧
      ism_loss m B x = ism_loss_fast m B x := by
  have htr : ∀ k, ismTr m x k = ismTrFast m x k := by
    intro k
    obtain ⟨h1, h2⟩ := ismTr_eq_diag01 m x k
    rw [h1, h2]
  refine ⟨htr, ?_⟩
  unfold ism_loss ism_loss_fast ismCombine
  congr 1
  exact Finset.sum_congr rfl fun k _ => by rw [htr k]

/-- Python-level runtime failures that the embedded functions can raise:
dividing by zero, or indexing an array out of bounds. -/
inductive PyErr where
  | zeroDivision
  | indexError
deriving DecidableEq

/-- Arithmetic body of `losses.dsm_loss` (losses.py lines 41-45):
`xn = x + randn * sigma`, `targets = (1/sigma**2) * (x - xn)`,
`0.5 * ((scores - targets)**2).sum(-1).mean(0)`, with the noise draw `ε`
passed in explicitly. -/
def dsmBody (m : ScoreModel) (B : ℕ) (x ε : ℕ → ℕ → ℚ) (σ : ℚ) : ℚ :=
  let xn := fun k i => x k i + ε k i * σ
  let targets := fun k i => 1 / σ ^ 2 * (x k i - xn k i)
  let scores := fun k => m.f (xn k)
  1/2 *
    ((∑ k in Finset.range B,
        ∑ i in Finset.range m.D, (scores k i - targets k i) ^ 2) / B)

/-- Embeds `losses.dsm_loss`.  The source performs no validation; the only
failure path is Python's `ZeroDivisionError` from evaluating
`1 / sigma ** 2` when `sigma == 0`. -/
def dsm_loss (m : ScoreModel) (B : ℕ) (x ε : ℕ → ℕ → ℚ) (σ : ℚ) :
    Except PyErr ℚ :=
  if σ = 0 then Except.error PyErr.zeroDivision
  else Except.ok (dsmBody m B x ε σ)

/-- Embeds `losses.ncsm_loss` (losses.py lines 48-58), with the level
draw `ids` (the source's `torch.randint(0, K, (B,))`) and the Gaussian
draw `ε` passed in explicitly.  `chosen`, `xn`, `targets`, `scores`,
`losses` and `lambd` mirror the source lines one for one; the result is
`(losses * lambd).mean()`. -/
def ncsm_loss (m : CondScoreModel) (B : ℕ) (x ε : ℕ → ℕ → ℚ)
    (ids : ℕ → ℕ) (sigmae : ℕ → ℚ) : ℚ :=
  let chosen := fun k => sigmae (ids k)
  let xn := fun k i => x k i + ε k i * chosen k
  let targets := fun k i => 1 / chosen k ^ 2 * (x k i - xn k i)
  let scores := fun k => m.f (xn k) (ids k)
  let losses := fun k =>
    1/2 * ∑ i in Finset.range m.D, (scores k i - targets k i) ^ 2
  let lambd := fun k => chosen k ^ 2
  (∑ k in Finset.range B, losses k * lambd k) / B

/-- The per-sample denoising residual of DSM, used to state how NCSM
reuses it: `0.5·‖f(x_k + ε_k σ) - (1/σ²)(x_k - x_noisy_k)‖²`. -/
def dsmPerSample (D : ℕ) (f : (ℕ → ℚ) → ℕ → ℚ) (xk εk : ℕ → ℚ) (σ : ℚ) : ℚ :=
  let xn := fun i => xk i + εk i * σ
  1/2 * ∑ i in Finset.range D, (f xn i - 1 / σ ^ 2 * (xk i - xn i)) ^ 2

/-- A conditional score model specialised to one fixed level index, seen
as an unconditional score model.  `dsm_loss` never reads the Jacobian
field, so it is set to zero. -/
def atLevel (m : CondScoreModel) (id : ℕ) : ScoreModel where
  D := m.D
  f := fun v => m.f v id
  jac := fun _ _ _ => 0

/-- A tiny concrete conditional model used by witnesses: `f(v, id) = v`
for every level, with `D = 2`. -/
def demoCond : CondScoreModel where
  D := 2
  f := fun v _ => v

/-- C4: for every score model, non-empty batch, positive `σ` and fixed
noise draw `ε`, the DSM loss succeeds and equals `0.5` times the batch
mean of `‖f(x_k + σε_k) - t_k‖²` with target
`t_k = -((x_k + σε_k) - x_k)/σ²`, the squared norm summed over the `D`
output dimensions inside the norm. -/
theorem C4_dsm_formula (m : ScoreModel) (B : ℕ) (x ε : ℕ → ℕ → ℚ) (σ : ℚ)
    (hσ : 0 < σ) (hB : 0 < B) :
    dsm_loss m B x ε σ =
      Except.ok (1/2 *
        ((∑ k in Finset.range B,
            ∑ i in Finset.range m.D,
              (m.f (fun i => x k i + σ * ε k i) i -
                (-((x k i + σ * ε k i) - x k i) / σ ^ 2)) ^ 2) / B)) := by
  have hpt : ∀ k i : ℕ,
      (m.f (fun i => x k i + ε k i * σ) i -
          1 / σ ^ 2 * (x k i - (x k i + ε k i * σ))) ^ 2 =
        (m.f (fun i => x k i + σ * ε k i) i -
          (-((x k i + σ * ε k i) - x k i) / σ ^ 2)) ^ 2 := by
    intro k i
    have hfx : (fun i => x k i + ε k i * σ) = fun i => x k i + σ * ε k i :=
      funext fun i => by ring
    rw [hfx]
    ring
  rw [dsm_loss, if_neg (ne_of_gt hσ)]
  simp only [dsmBody]
  rw [Finset.sum_congr rfl fun k _ => Finset.sum_congr rfl fun i _ => hpt k i]

/-- C4 witness: the DSM formula evaluated on the concrete demo model, a
singleton zero batch, zero noise and `σ = 1`. -/
theorem C4_dsm_formula_witness :
    (0 : ℚ) < 1 ∧ (0 : ℕ) < 1 ∧
      dsm_loss demo2 1 zeroBatch zeroBatch 1 =
        Except.ok (1/2 *
          ((∑ k in Finset.range 1,
              ∑ i in Finset.range demo2.D,
                (demo2.f (fun i => zeroBatch k i + 1 * zeroBatch k i) i -
                  (-((zeroBatch k i + 1 * zeroBatch k i) - zeroBatch k i) /
                    (1 : ℚ) ^ 2)) ^ 2) / ((1 : ℕ) : ℚ))) :=
  ⟨one_pos, one_pos, C4_dsm_formula demo2 1 zeroBatch zeroBatch 1 one_pos one_pos⟩

/-- C5: for every conditional score model, non-empty batch, schedule of
`K` positive levels, and per-sample level draw `ids` taking values in
`{0,…,K-1}`, the NCSM loss multiplies each individual sample's DSM
residual (taken at that sample's own chosen level) by the `σ²` of that
level, and only then averages over the batch. -/
theorem C5_ncsm_per_sample (m : CondScoreModel) (B K : ℕ) (x ε : ℕ → ℕ → ℚ)
    (ids : ℕ → ℕ) (sigmae : ℕ → ℚ) (hB : 0 < B) (hK : 0 < K)
    (hσ : ∀ j, j < K → 0 < sigmae j) (hids : ∀ k, k < B → ids k < K) :
    ncsm_loss m B x ε ids sigmae =
      (∑ k in Finset.range B,
          sigmae (ids k) ^ 2 *
            dsmPerSample m.D (fun v => m.f v (ids k)) (x k) (ε k)
              (sigmae (ids k))) / B := by
  simp only [ncsm_loss, dsmPerSample]
  congr 1
  exact Finset.sum_congr rfl fun k _ => by ring

/-- C5 witness: the per-sample weighting evaluated on the concrete
conditional demo model, a singleton zero batch, zero noise, the constant
level draw `0` and the one-level schedule `σ = 1`. -/
theorem C5_ncsm_per_sample_witness :
    (0 : ℕ) < 1 ∧
      ncsm_loss demoCond 1 zeroBatch zeroBatch (fun _ => 0) (fun _ => 1) =
        (∑ k in Finset.range 1,
            (fun _ : ℕ => (1 : ℚ)) ((fun _ : ℕ => 0) k) ^ 2 *
              dsmPerSample demoCond.D
                (fun v => demoCond.f v ((fun _ : ℕ => 0) k)) (zeroBatch k)
                (zeroBatch k) ((fun _ : ℕ => (1 : ℚ)) ((fun _ : ℕ => 0) k))) /
          ((1 : ℕ) : ℚ) :=
  ⟨one_pos,
    C5_ncsm_per_sample demoCond 1 1 zeroBatch zeroBatch (fun _ => 0)
      (fun _ => 1) one_pos one_pos (fun _ _ => one_pos) (fun _ _ => one_pos)⟩

/-- Dimension of a conditional model specialised to a level. -/
theorem atLevel_D (m : CondScoreModel) (id : ℕ) : (atLevel m id).D = m.D := rfl

/-- Application of a conditional model specialised to a level. -/
theorem atLevel_f (m : CondScoreModel) (id : ℕ) (v : ℕ → ℚ) :
    (atLevel m id).f v = m.f v id := rfl

/-- C6: on a schedule whose only drawable level is index `0` with value
`σ > 0`, and with the same Gaussian draw, the NCSM loss equals `σ²` times
the DSM loss of the model specialised to level `0`. -/
theorem C6_ncsm_single_level (m : CondScoreModel) (B : ℕ) (x ε : ℕ → ℕ → ℚ)
    (ids : ℕ → ℕ) (sigmae : ℕ → ℚ) (hσ : 0 < sigmae 0)
    (hids : ∀ k, k < B → ids k = 0) :
    ∃ v, dsm_loss (atLevel m 0) B x ε (sigmae 0) = Except.ok v ∧
      ncsm_loss m B x ε ids sigmae = sigmae 0 ^ 2 * v := by
  refine ⟨dsmBody (atLevel m 0) B x ε (sigmae 0), ?_, ?_⟩
  · rw [dsm_loss, if_neg (ne_of_gt hσ)]
  · simp only [ncsm_loss, dsmBody, atLevel_D, atLevel_f]
    rw [Finset.sum_congr rfl fun k hk => by
      rw [hids k (Finset.mem_range.mp hk)]]
    rw [Finset.sum_congr rfl fun k _ =>
      (by ring :
        1/2 * (∑ i in Finset.range m.D,
            (m.f (fun i => x k i + ε k i * sigmae 0) 0 i -
              1 / sigmae 0 ^ 2 *
                (x k i - (x k i + ε k i * sigmae 0))) ^ 2) * sigmae 0 ^ 2 =
          sigmae 0 ^ 2 * (1/2) *
            ∑ i in Finset.range m.D,
              (m.f (fun i => x k i + ε k i * sigmae 0) 0 i -
                1 / sigmae 0 ^ 2 *
                  (x k i - (x k i + ε k i * sigmae 0))) ^ 2)]
    rw [← Finset.mul_sum]
    ring

/-- C6 witness: the single-level agreement evaluated on the concrete
conditional demo model, a singleton zero batch, zero noise, the constant
level draw `0` and schedule value `σ = 1`. -/
theorem C6_ncsm_single_level_witness :
    ∃ v, dsm_loss (atLevel demoCond 0) 1 zeroBatch zeroBatch
          ((fun _ : ℕ => (1 : ℚ)) 0) = Except.ok v ∧
        ncsm_loss demoCond 1 zeroBatch zeroBatch (fun _ => 0) (fun _ => 1) =
          (fun _ : ℕ => (1 : ℚ)) 0 ^ 2 * v :=
  C6_ncsm_single_level demoCond 1 zeroBatch zeroBatch (fun _ => 0)
    (fun _ => 1) one_pos (fun _ _ => rfl)

/-- C8: the claim fails on the code.  `dsm_loss` with the non-positive
noise scale `σ = -1` does not fail: it returns the ordinary numeric value
`0` on the concrete demo model and singleton zero batch. -/
theorem C8_counterexample :
    dsm_loss demo2 1 zeroBatch zeroBatch (-1) = Except.ok 0 := by
  rw [dsm_loss, if_neg (by norm_num)]
  norm_num [dsmBody, demo2, zeroBatch, Finset.sum_range_succ]

/-- C8 (amended): neither loss validates its inputs.  `dsm_loss` returns
a numeric value for every `σ < 0` and for every batch size, the empty
batch `B = 0` included; it fails only at `σ = 0`, with an incidental
`ZeroDivisionError` raised while evaluating `1 / sigma ** 2`, not with a
contract check.  `ncsm_loss` has no failure path at all for any schedule
(its embedding is a total function), so non-positive levels are accepted
silently. -/
theorem C8_no_validation (m : ScoreModel) (B : ℕ) (x ε : ℕ → ℕ → ℚ)
    (σ : ℚ) :
    (σ < 0 → dsm_loss m B x ε σ = Except.ok (dsmBody m B x ε σ)) ∧
      dsm_loss m B x ε 0 = Except.error PyErr.zeroDivision ∧
        ∀ (mc : CondScoreModel) (ids : ℕ → ℕ) (sigmae : ℕ → ℚ),
          ∃ q : ℚ, ncsm_loss mc B x ε ids sigmae = q := by
  refine ⟨fun h => ?_, ?_, fun mc ids sigmae => ⟨_, rfl⟩⟩
  · rw [dsm_loss, if_neg (ne_of_lt h)]
  · rw [dsm_loss, if_pos rfl]

/-- C8 witness: the amended statement applied at `σ = -1` with the empty
batch `B = 0`, on the concrete demo models. -/
theorem C8_no_validation_witness :
    dsm_loss demo2 0 zeroBatch zeroBatch (-1) =
        Except.ok (dsmBody demo2 0 zeroBatch zeroBatch (-1)) ∧
      dsm_loss demo2 0 zeroBatch zeroBatch 0 =
          Except.error PyErr.zeroDivision ∧
        ∃ q : ℚ, ncsm_loss demoCond 0 zeroBatch zeroBatch (fun _ => 0)
            (fun _ => -1) = q :=
  ⟨(C8_no_validation demo2 0 zeroBatch zeroBatch (-1)).1 (by norm_num),
    (C8_no_validation demo2 0 zeroBatch zeroBatch (-1)).2.1,
    (C8_no_validation demo2 0 zeroBatch zeroBatch (-1)).2.2 demoCond
      (fun _ => 0) (fun _ => -1)⟩

/-- Grid spacing along one axis: `(extent_max - extent_min) / (count - 1)`,
the source's `(lim[1] - lim[0]) / (n - 1)` with Python integer subtraction
(so `count = 0` gives divisor `-1`). -/
def gridStep (lo hi : ℚ) (n : ℕ) : ℚ := (hi - lo) / ((n : ℚ) - 1)

/-- The accumulation loop of `integrate_scores_rect2d` (toy_matching.py
lines 95-101): `u[0,0] = c`, `u[0,ix] = tx[0,ix-1] + u[0,ix-1]` for
`ix ≥ 1`, and `u[iy,ix] = ty[iy-1,ix] + u[iy-1,ix]` for `iy ≥ 1` in every
column. -/
def uGrid (tx ty : ℕ → ℕ → ℚ) (c : ℚ) : ℕ → ℕ → ℚ
  | 0, 0 => c
  | 0, ix + 1 => tx 0 ix + uGrid tx ty c 0 ix
  | iy + 1, ix => ty iy ix + uGrid tx ty c iy ix

/-- Embeds `toy_matching.integrate_scores_rect2d` on an already-sampled
field `scores : (iy, ix) ↦ (V_x, V_y)`.  The source performs no explicit
validation; a grid count of `1` raises Python's `ZeroDivisionError` while
computing the spacing (`hx` first, then `hy`), and a zero count makes the
seed write `u[0, 0] = c` raise `IndexError`.  On a valid grid it returns
the trapezoidal accumulation `uGrid` of the increment tensors
`tx = 0.5*(scores[:,1:,0] + scores[:,:-1,0])*hx` and
`ty = 0.5*(scores[1:,:,1] + scores[:-1,:,1])*hy`. -/
def integrate_scores_rect2d (scores : ℕ → ℕ → ℚ × ℚ) (xlim ylim : ℚ × ℚ)
    (n_x n_y : ℕ) (c : ℚ) : Except PyErr (ℕ → ℕ → ℚ) :=
  if n_x = 1 then Except.error PyErr.zeroDivision
  else if n_y = 1 then Except.error PyErr.zeroDivision
  else if n_x = 0 ∨ n_y = 0 then Except.error PyErr.indexError
  else
    let hx := gridStep xlim.1 xlim.2 n_x
    let hy := gridStep ylim.1 ylim.2 n_y
    let tx := fun iy ix => 1/2 * ((scores iy (ix + 1)).1 + (scores iy ix).1) * hx
    let ty := fun iy ix => 1/2 * ((scores (iy + 1) ix).2 + (scores iy ix).2) * hy
    Except.ok (uGrid tx ty c)

/-- C2: on every grid with `n_x ≥ 2` and `n_y ≥ 2` the integrator succeeds
and its output satisfies exactly the claimed recurrences: the seed
`U[0,0] = c`, the bottom-row trapezoidal walk in `x` with
`hx = (x1-x0)/(n_x-1)`, and the upward trapezoidal walk in `y` in every
column with `hy = (y1-y0)/(n_y-1)`. -/
theorem C2_integrator_recurrence (scores : ℕ → ℕ → ℚ × ℚ)
    (xlim ylim : ℚ × ℚ) (n_x n_y : ℕ) (c : ℚ)
    (hx2 : 2 ≤ n_x) (hy2 : 2 ≤ n_y) :
    ∃ u, integrate_scores_rect2d scores xlim ylim n_x n_y c = Except.ok u ∧
      u 0 0 = c ∧
      (∀ ix, 1 ≤ ix → ix < n_x →
        u 0 ix = u 0 (ix - 1) +
          1/2 * ((scores 0 ix).1 + (scores 0 (ix - 1)).1) *
            ((xlim.2 - xlim.1) / ((n_x : ℚ) - 1))) ∧
      (∀ ix, ix < n_x → ∀ iy, 1 ≤ iy → iy < n_y →
        u iy ix = u (iy - 1) ix +
          1/2 * ((scores iy ix).2 + (scores (iy - 1) ix).2) *
            ((ylim.2 - ylim.1) / ((n_y : ℚ) - 1))) := by
  rw [integrate_scores_rect2d, if_neg (by omega), if_neg (by omega),
    if_neg (by omega)]
  refine ⟨_, rfl, by simp only [uGrid], ?_, ?_⟩
  · intro ix h1 _
    obtain ⟨j, rfl⟩ : ∃ j, ix = j + 1 := ⟨ix - 1, by omega⟩
    simp only [Nat.add_sub_cancel, uGrid, gridStep]
    ring
  · intro ix _ iy h1 _
    obtain ⟨j, rfl⟩ : ∃ j, iy = j + 1 := ⟨iy - 1, by omega⟩
    simp only [Nat.add_sub_cancel, uGrid, gridStep]
    ring

/-- C2 witness: the recurrences evaluated on the constant field `(1, 1)`
over the unit square with a 2×2 grid and seed `c = 5`. -/
theorem C2_integrator_recurrence_witness :
    ∃ u, integrate_scores_rect2d (fun _ _ => (1, 1)) (0, 1) (0, 1) 2 2 5 =
        Except.ok u ∧
      u 0 0 = 5 ∧
      (∀ ix, 1 ≤ ix → ix < 2 →
        u 0 ix = u 0 (ix - 1) +
          1/2 * (((fun _ _ => ((1 : ℚ), (1 : ℚ))) 0 ix).1 +
              ((fun _ _ => ((1 : ℚ), (1 : ℚ))) 0 (ix - 1)).1) *
            (((0, (1 : ℚ)).2 - ((0 : ℚ), (1 : ℚ)).1) / ((2 : ℕ) - 1 : ℚ))) ∧
      (∀ ix, ix < 2 → ∀ iy, 1 ≤ iy → iy < 2 →
        u iy ix = u (iy - 1) ix +
          1/2 * (((fun _ _ => ((1 : ℚ), (1 : ℚ))) iy ix).2 +
              ((fun _ _ => ((1 : ℚ), (1 : ℚ))) (iy - 1) ix).2) *
            (((0, (1 : ℚ)).2 - ((0 : ℚ), (1 : ℚ)).1) / ((2 : ℕ) - 1 : ℚ))) :=
  C2_integrator_recurrence (fun _ _ => (1, 1)) (0, 1) (0, 1) 2 2 5
    (by norm_num) (by norm_num)

/-- C9: the spacing in each axis is `(extent_max - extent_min)/(count - 1)`,
and a grid count below `2` in either axis makes the integrator fail with
an error (`ZeroDivisionError` for a count of `1`, `IndexError` at the seed
write for a count of `0`) instead of producing a grid. -/
theorem C9_integrator_degenerate (scores : ℕ → ℕ → ℚ × ℚ)
    (xlim ylim : ℚ × ℚ) (n_x n_y : ℕ) (c : ℚ)
    (h : n_x < 2 ∨ n_y < 2) :
    (∀ (lo hi : ℚ) (n : ℕ), gridStep lo hi n = (hi - lo) / ((n : ℚ) - 1)) ∧
      ∃ e, integrate_scores_rect2d scores xlim ylim n_x n_y c =
        Except.error e := by
  refine ⟨fun _ _ _ => rfl, ?_⟩
  by_cases h1 : n_x = 1
  · exact ⟨_, by rw [integrate_scores_rect2d, if_pos h1]⟩
  by_cases h2 : n_y = 1
  · exact ⟨_, by rw [integrate_scores_rect2d, if_neg h1, if_pos h2]⟩
  have h0 : n_x = 0 ∨ n_y = 0 := by omega
  exact ⟨_, by rw [integrate_scores_rect2d, if_neg h1, if_neg h2, if_pos h0]⟩

/-- C9 witness: a single-column grid (`n_x = 1`) makes the integrator
fail, and the spacing formula holds at concrete arguments. -/
theorem C9_integrator_degenerate_witness :
    (∀ (lo hi : ℚ) (n : ℕ), gridStep lo hi n = (hi - lo) / ((n : ℚ) - 1)) ∧
      ∃ e, integrate_scores_rect2d (fun _ _ => (1, 1)) (0, 1) (0, 1) 1 3 0 =
        Except.error e :=
  C9_integrator_degenerate (fun _ _ => (1, 1)) (0, 1) (0, 1) 1 3 0
    (Or.inl (by norm_num))

/-- The accumulation loop reads `tx` only in its bottom row and `ty` only
below the target row in the target column, so it is invariant under any
change of the other entries. -/
theorem uGrid_congr (tx tx' ty ty' : ℕ → ℕ → ℚ) (c : ℚ) :
    ∀ iy ix, (∀ i, i < iy → ty i ix = ty' i ix) →
      (∀ j, j < ix → tx 0 j = tx' 0 j) →
      uGrid tx ty c iy ix = uGrid tx' ty' c iy ix := by
  intro iy
  induction iy with
  | zero =>
    intro ix
    induction ix with
    | zero => intro _ _; simp only [uGrid]
    | succ j ihx =>
      intro hty htx
      simp only [uGrid]
      rw [htx j (Nat.lt_succ_self j),
        ihx (fun i hi => absurd hi (Nat.not_lt_zero i))
          (fun j' hj => htx j' (Nat.lt_succ_of_lt hj))]
  | succ iy ihy =>
    intro ix hty htx
    simp only [uGrid]
    rw [hty iy (Nat.lt_succ_self iy),
      ihy ix (fun i hi => hty i (Nat.lt_succ_of_lt hi)) htx]

/-- C10: two fields of the same shape that agree on the y-component
everywhere on the grid and on the x-component in the bottom row produce
the same integrator output at every in-range grid point, for identical
extents and seed constant: x-components above the bottom row never
influence the result. -/
theorem C10_upper_x_irrelevant (scores scores' : ℕ → ℕ → ℚ × ℚ)
    (xlim ylim : ℚ × ℚ) (n_x n_y : ℕ) (c : ℚ)
    (hy : ∀ iy ix, iy < n_y → ix < n_x → (scores iy ix).2 = (scores' iy ix).2)
    (hx : ∀ ix, ix < n_x → (scores 0 ix).1 = (scores' 0 ix).1) :
    ∀ iy ix, iy < n_y → ix < n_x →
      Except.map (fun u => u iy ix)
          (integrate_scores_rect2d scores xlim ylim n_x n_y c) =
        Except.map (fun u => u iy ix)
          (integrate_scores_rect2d scores' xlim ylim n_x n_y c) := by
  intro iy ix hiy hix
  rw [integrate_scores_rect2d, integrate_scores_rect2d]
  by_cases h1 : n_x = 1
  · rw [if_pos h1, if_pos h1]
  by_cases h2 : n_y = 1
  · rw [if_neg h1, if_pos h2, if_neg h1, if_pos h2]
  by_cases h0 : n_x = 0 ∨ n_y = 0
  · rw [if_neg h1, if_neg h2, if_pos h0, if_neg h1, if_neg h2, if_pos h0]
  simp only [if_neg h1, if_neg h2, if_neg h0, Except.map]
  congr 1
  apply uGrid_congr
  · intro i hi
    rw [hy (i + 1) ix (by omega) hix, hy i ix (by omega) hix]
  · intro j hj
    rw [hx (j + 1) (by omega), hx j (by omega)]

/-- C10 witness: two concrete 2×2 fields whose x-components differ in the
top row (`5` versus `7`) integrate to the same value at the top-right
grid point. -/
theorem C10_upper_x_irrelevant_witness :
    Except.map (fun u => u 1 1)
        (integrate_scores_rect2d
          (fun iy _ => (if iy = 0 then 1 else 5, 2)) (0, 1) (0, 1) 2 2 0) =
      Except.map (fun u => u 1 1)
        (integrate_scores_rect2d
          (fun iy _ => (if iy = 0 then 1 else 7, 2)) (0, 1) (0, 1) 2 2 0) :=
  C10_upper_x_irrelevant
    (fun iy _ => (if iy = 0 then 1 else 5, 2))
    (fun iy _ => (if iy = 0 then 1 else 7, 2))
    (0, 1) (0, 1) 2 2 0
    (fun _ _ _ _ => rfl) (fun _ _ => rfl) 1 1 (by norm_num) (by norm_num)

end Diffusion
